import Mathlib

/-!
Verification of the foodgo-server call-signalling backend.

The repository contains two in-memory signalling servers:
* `src/src/server.js` — modelled below in namespace `Simple`
  (endpoints `/api/calls/initiate-simple`, `accept`, `reject`, `end`,
  socket handlers `authenticate`, `audio_data`, `disconnect`);
* `src/server/server.js` — modelled in namespace `Agora`
  (endpoints `/api/calls/initiate`, `accept`, `reject`, `end`,
  socket handlers `authenticate`, `disconnect`).

JavaScript `Map`s are modelled as association lists with the exact
`Map` semantics: `set` replaces the first binding in place or appends,
`get` returns the first binding, `delete` removes the first binding,
iteration is in insertion order.  Handlers are translated on their
non-throwing path; socket emission is modelled as a list of emitted
events, each with the string passed to `io.to(...)` as its target.
-/

namespace FoodGo

/-- JS `Map.prototype.get`: first binding of the key, if any. -/
def mapGet {β : Type} : List (String × β) → String → Option β
  | [], _ => none
  | (k', v') :: rest, k => if k' = k then some v' else mapGet rest k

/-- JS `Map.prototype.set`: replace the first binding in place, else append. -/
def mapSet {β : Type} : List (String × β) → String → β → List (String × β)
  | [], k, v => [(k, v)]
  | (k', v') :: rest, k, v =>
    if k' = k then (k, v) :: rest else (k', v') :: mapSet rest k v

/-- JS `Map.prototype.delete`: remove the first binding of the key. -/
def mapDelete {β : Type} : List (String × β) → String → List (String × β)
  | [], _ => []
  | (k', v') :: rest, k => if k' = k then rest else (k', v') :: mapDelete rest k

/-- A JS `Map` never holds two bindings of one key. -/
abbrev keysNodup {β : Type} (m : List (String × β)) : Prop :=
  (m.map Prod.fst).Nodup

@[simp] theorem mapGet_nil {β : Type} (k : String) :
    mapGet ([] : List (String × β)) k = none := rfl

@[simp] theorem mapGet_cons {β : Type} (k' k : String) (v' : β) (rest : List (String × β)) :
    mapGet ((k', v') :: rest) k = if k' = k then some v' else mapGet rest k := rfl

@[simp] theorem mapSet_nil {β : Type} (k : String) (v : β) :
    mapSet ([] : List (String × β)) k v = [(k, v)] := rfl

@[simp] theorem mapSet_cons {β : Type} (k' k : String) (v' v : β) (rest : List (String × β)) :
    mapSet ((k', v') :: rest) k v =
      if k' = k then (k, v) :: rest else (k', v') :: mapSet rest k v := rfl

@[simp] theorem mapDelete_nil {β : Type} (k : String) :
    mapDelete ([] : List (String × β)) k = [] := rfl

@[simp] theorem mapDelete_cons {β : Type} (k' k : String) (v' : β) (rest : List (String × β)) :
    mapDelete ((k', v') :: rest) k =
      if k' = k then rest else (k', v') :: mapDelete rest k := rfl

theorem mapGet_mapSet_self {β : Type} (m : List (String × β)) (k : String) (v : β) :
    mapGet (mapSet m k v) k = some v := by
  induction m with
  | nil => simp [mapGet, mapSet]
  | cons hd tl ih =>
    obtain ⟨k', v'⟩ := hd
    by_cases h : k' = k <;> simp [mapGet, mapSet, h, ih]

theorem mapGet_mapSet_ne {β : Type} (m : List (String × β)) (k k₀ : String) (v : β)
    (hne : k ≠ k₀) : mapGet (mapSet m k v) k₀ = mapGet m k₀ := by
  induction m with
  | nil => simp [mapGet, mapSet, hne]
  | cons hd tl ih =>
    obtain ⟨k', v'⟩ := hd
    by_cases h : k' = k
    · subst h; simp [mapGet, mapSet, hne]
    · simp [mapGet, mapSet, h, ih]

theorem mapGet_mapDelete_ne {β : Type} (m : List (String × β)) (k k₀ : String)
    (hnd : keysNodup m) (hne : k ≠ k₀) :
    mapGet (mapDelete m k) k₀ = mapGet m k₀ := by
  induction m with
  | nil => simp
  | cons hd tl ih =>
    obtain ⟨k', v'⟩ := hd
    simp only [keysNodup, List.map_cons, List.nodup_cons] at hnd
    by_cases h : k' = k
    · subst h; simp [mapGet, mapDelete, hne]
    · simp [mapGet, mapDelete, h]
      by_cases h0 : k' = k₀
      · simp [h0]
      · simp [h0, ih hnd.2]

/-- Call-session status strings used by either server
(`"ringing"`, `"accepted"`, `"rejected"`, `"ended"` in `src/src/server.js`;
`"initiated"`, `"accepted"`, `"rejected"`, `"ended"` in `src/server/server.js`). -/
inductive CallStatus
  | ringing
  | accepted
  | rejected
  | ended
  | initiated
deriving DecidableEq, Repr

/-- Socket events emitted via `io.to(target).emit(...)`, keeping the fields
the claims are about.  `target` below is the string passed to `io.to`. -/
inductive Event
  | incoming_call (callId callerId : String)
  | call_accepted (callId : String)
  | call_rejected (callId : String)
  | call_ended (callId : String)
  | audio_data (callId audioChunk : String)
deriving DecidableEq, Repr

/-- One `io.to(target).emit(event)` call. -/
structure Emit where
  target : String
  event : Event
deriving DecidableEq, Repr

namespace Simple

/-- Call session record of `src/src/server.js` (`callSession` object built in
`/api/calls/initiate-simple`). -/
structure CallSession where
  id : String
  callerId : String
  receiverId : String
  orderTrackingId : String
  callerName : String
  callType : String
  status : CallStatus
deriving DecidableEq, Repr

/-- The two global `Map`s of `src/src/server.js`:
`users` (userId → socketId) and `activeCalls` (callId → callSession). -/
structure ServerState where
  users : List (String × String)
  activeCalls : List (String × CallSession)
deriving DecidableEq, Repr

/-- HTTP handler outcome: response status code, the mutated server state, and
the socket events emitted while handling the request. -/
structure HttpResult where
  status : Nat
  state : ServerState
  emits : List Emit
deriving DecidableEq, Repr

/-- Request body of `/api/calls/initiate-simple`, plus the fresh `uuidv4()`
call id, which is nondeterministic input to the handler. -/
structure InitReq where
  callerId : String
  receiverId : String
  orderTrackingId : String
  callerName : String
  callType : String
  newCallId : String
deriving DecidableEq, Repr

/-- The per-session predicate of the busy test of `initiate-simple`:
`call.status !== "ended" && call.status !== "rejected" &&
(call.callerId === uid || call.receiverId === uid)`. -/
def busyFor (cs : CallSession) (uid : String) : Bool :=
  cs.status ≠ CallStatus.ended && cs.status ≠ CallStatus.rejected &&
    (cs.callerId = uid || cs.receiverId = uid)

/-- The busy test of `initiate-simple`:
`[...activeCalls.values()].some(call => ...)`. -/
def isBusy (st : ServerState) (uid : String) : Bool :=
  st.activeCalls.any fun p => busyFor p.2 uid

/-- `socket.on("authenticate")`: `users.set(userId, socket.id)`. -/
def authenticate (st : ServerState) (userId socketId : String) : ServerState :=
  { st with users := mapSet st.users userId socketId }

/-- `app.post("/api/calls/initiate-simple")`.  Checks for missing ids (400),
then the caller and receiver busy checks (409), then builds and **stores** the
`ringing` session; only after storing does it look up the receiver's socket,
returning 404 (without removing the stored session) when the receiver has no
presence entry. -/
def initiateSimple (st : ServerState) (r : InitReq) : HttpResult :=
  if r.callerId = "" || r.receiverId = "" then
    { status := 400, state := st, emits := [] }
  else if isBusy st r.callerId then
    { status := 409, state := st, emits := [] }
  else if isBusy st r.receiverId then
    { status := 409, state := st, emits := [] }
  else
    let callSession : CallSession :=
      { id := r.newCallId, callerId := r.callerId, receiverId := r.receiverId,
        orderTrackingId := r.orderTrackingId, callerName := r.callerName,
        callType := r.callType, status := CallStatus.ringing }
    let st1 : ServerState :=
      { st with activeCalls := mapSet st.activeCalls r.newCallId callSession }
    match mapGet st1.users r.receiverId with
    | some receiverSocketId =>
      { status := 200, state := st1,
        emits := [⟨receiverSocketId, Event.incoming_call r.newCallId r.callerId⟩] }
    | none =>
      { status := 404, state := st1, emits := [] }

/-- `app.post("/api/calls/:callId/accept")`: 404 if the call id is unknown,
403 if `userId` is not the receiver, otherwise unconditionally sets the status
to `accepted` (there is no check of the current status) and notifies the
caller's socket when connected. -/
def accept (st : ServerState) (callId userId : String) : HttpResult :=
  match mapGet st.activeCalls callId with
  | none => { status := 404, state := st, emits := [] }
  | some callSession =>
    if callSession.receiverId ≠ userId then
      { status := 403, state := st, emits := [] }
    else
      let cs1 := { callSession with status := CallStatus.accepted }
      let st1 := { st with activeCalls := mapSet st.activeCalls callId cs1 }
      let emits :=
        match mapGet st.users callSession.callerId with
        | some callerSocketId => [⟨callerSocketId, Event.call_accepted callId⟩]
        | none => []
      { status := 200, state := st1, emits := emits }

/-- `app.post("/api/calls/:callId/reject")`: 404 if unknown, 403 if `userId`
is not the receiver, otherwise sets status `rejected`, notifies the caller's
socket when connected, and deletes the record. -/
def reject (st : ServerState) (callId userId : String) : HttpResult :=
  match mapGet st.activeCalls callId with
  | none => { status := 404, state := st, emits := [] }
  | some callSession =>
    if callSession.receiverId ≠ userId then
      { status := 403, state := st, emits := [] }
    else
      let cs1 := { callSession with status := CallStatus.rejected }
      let calls1 := mapDelete (mapSet st.activeCalls callId cs1) callId
      let emits :=
        match mapGet st.users callSession.callerId with
        | some callerSocketId => [⟨callerSocketId, Event.call_rejected callId⟩]
        | none => []
      { status := 200, state := { st with activeCalls := calls1 }, emits := emits }

/-- `app.post("/api/calls/:callId/end")`: 404 if unknown; `userId` is never
validated.  Sets status `ended`, notifies both parties' sockets when
connected, and deletes the record. -/
def endCall (st : ServerState) (callId userId : String) : HttpResult :=
  match mapGet st.activeCalls callId with
  | none => { status := 404, state := st, emits := [] }
  | some callSession =>
    let cs1 := { callSession with status := CallStatus.ended }
    let calls1 := mapDelete (mapSet st.activeCalls callId cs1) callId
    let callerEmits :=
      match mapGet st.users callSession.callerId with
      | some callerSocketId => [⟨callerSocketId, Event.call_ended callId⟩]
      | none => []
    let receiverEmits :=
      match mapGet st.users callSession.receiverId with
      | some receiverSocketId => [⟨receiverSocketId, Event.call_ended callId⟩]
      | none => []
    { status := 200, state := { st with activeCalls := calls1 },
      emits := callerEmits ++ receiverEmits }

/-- `socket.on("audio_data")`: drops the event when the call id is unknown;
otherwise resolves the recipient as the other side of the session
(`callSession.callerId === data.senderId ? receiverId : callerId`), and emits
the chunk to the recipient's socket when connected, else drops it.  The
handler never mutates state and never reports an error to the sender, so its
result is just the emitted events. -/
def audioData (st : ServerState) (callId senderId audioChunk : String) : List Emit :=
  match mapGet st.activeCalls callId with
  | none => []
  | some callSession =>
    let recipientId :=
      if callSession.callerId = senderId then callSession.receiverId
      else callSession.callerId
    match mapGet st.users recipientId with
    | some recipientSocketId => [⟨recipientSocketId, Event.audio_data callId audioChunk⟩]
    | none => []

/-- Does the session reference the participant as caller or receiver
(the predicate of the disconnect cascade)? -/
def involves (cs : CallSession) (uid : String) : Bool :=
  cs.callerId = uid || cs.receiverId = uid

/-- `socket.on("disconnect")`: scan `users` in insertion order for the first
entry whose socketId equals the disconnecting socket's id; delete it, then for
every active call referencing that userId emit `call_ended` to
`call.callerId` and to `call.receiverId` (the user ids, as written in the
source) and delete the call; then `break`.  If no entry matches, nothing
happens. -/
def disconnect (st : ServerState) (socketId : String) : ServerState × List Emit :=
  match st.users.find? (fun p => p.2 = socketId) with
  | none => (st, [])
  | some (userId, _) =>
    let users1 := mapDelete st.users userId
    let affected := st.activeCalls.filter (fun p => involves p.2 userId)
    let emits := affected.flatMap (fun p =>
      [⟨p.2.callerId, Event.call_ended p.1⟩, ⟨p.2.receiverId, Event.call_ended p.1⟩])
    let calls1 := st.activeCalls.filter (fun p => !(involves p.2 userId))
    ({ users := users1, activeCalls := calls1 }, emits)

/-- Number of stored sessions that make `uid` busy. -/
def countBusy (calls : List (String × CallSession)) (uid : String) : Nat :=
  (calls.filter (fun p => busyFor p.2 uid)).length

/-- Spec §3 busy invariant: no participant is the caller or receiver of two
simultaneously non-terminal sessions. -/
def noDoubleBooking (st : ServerState) : Prop :=
  ∀ uid, countBusy st.activeCalls uid ≤ 1

/-- The session record inserted by a non-busy `initiate-simple` request. -/
def newSession (r : InitReq) : CallSession :=
  { id := r.newCallId, callerId := r.callerId, receiverId := r.receiverId,
    orderTrackingId := r.orderTrackingId, callerName := r.callerName,
    callType := r.callType, status := CallStatus.ringing }

/-- Run a whole sequence of `initiate-simple` requests against a server that
starts with presence table `users` and no stored sessions. -/
def runInitiates (users : List (String × String)) (reqs : List InitReq) : ServerState :=
  reqs.foldl (fun st r => (initiateSimple st r).state) ⟨users, []⟩

/-- The other side of a session, from the point of view of participant `uid`. -/
def otherParty (cs : CallSession) (uid : String) : String :=
  if cs.callerId = uid then cs.receiverId else cs.callerId

/-- The `call_ended` events the disconnect handler emits when participant
`uid` is freed: two per affected session, one addressed at `call.callerId`
and one at `call.receiverId`. -/
def cascadeEmits (calls : List (String × CallSession)) (uid : String) : List Emit :=
  (calls.filter fun p => involves p.2 uid).flatMap fun p =>
    [⟨p.2.callerId, Event.call_ended p.1⟩, ⟨p.2.receiverId, Event.call_ended p.1⟩]

end Simple

/-- Number of emitted events with the given target and event. -/
def countEmit (es : List Emit) (t : String) (e : Event) : Nat :=
  (es.filter fun em => em.target = t && em.event = e).length

namespace Agora

/-- Call session record of `src/server/server.js` (`callSession` object built
in `/api/calls/initiate`).  Agora token generation is an external collaborator
(spec §1), so the two generated tokens are opaque strings supplied to the
handler. -/
structure CallSession where
  id : String
  channelName : String
  callerId : String
  receiverId : String
  orderTrackingId : String
  callType : String
  status : CallStatus
  callerToken : String
  receiverToken : String
deriving DecidableEq, Repr

/-- The two global `Map`s of `src/server/server.js`:
`activeCalls` (callId → callSession) and `userSockets` (userId → socketId). -/
structure ServerState where
  activeCalls : List (String × CallSession)
  userSockets : List (String × String)
deriving DecidableEq, Repr

/-- HTTP handler outcome for the Agora variant. -/
structure HttpResult where
  status : Nat
  state : ServerState
  emits : List Emit
deriving DecidableEq, Repr

/-- Request body of `/api/calls/initiate`, plus the wall-clock value `now`
(`Date.now()`, used for the channel name and the call id) and the two opaque
Agora tokens. -/
structure InitReq where
  callerId : String
  receiverId : String
  orderTrackingId : String
  callType : String
  now : Nat
  callerToken : String
  receiverToken : String
deriving DecidableEq, Repr

/-- `socket.on("authenticate")`: `userSockets.set(userId, socket.id)`. -/
def authenticate (st : ServerState) (userId socketId : String) : ServerState :=
  { st with userSockets := mapSet st.userSockets userId socketId }

/-- `app.post("/api/calls/initiate")`: no busy check and no reachability
check; it always builds a session with status `"initiated"`, stores it,
notifies the receiver's socket when connected, and responds 200. -/
def initiate (st : ServerState) (r : InitReq) : HttpResult :=
  let channelName := "call_" ++ r.orderTrackingId ++ "_" ++ toString r.now
  let callId := "call_" ++ toString r.now
  let callSession : CallSession :=
    { id := callId, channelName := channelName, callerId := r.callerId,
      receiverId := r.receiverId, orderTrackingId := r.orderTrackingId,
      callType := r.callType, status := CallStatus.initiated,
      callerToken := r.callerToken, receiverToken := r.receiverToken }
  let st1 : ServerState :=
    { st with activeCalls := mapSet st.activeCalls callId callSession }
  let emits :=
    match mapGet st.userSockets r.receiverId with
    | some receiverSocketId => [⟨receiverSocketId, Event.incoming_call callId r.callerId⟩]
    | none => []
  { status := 200, state := st1, emits := emits }

/-- `app.post("/api/calls/:callId/accept")`: 404 if the call id is unknown;
otherwise — with no receiver check and no status check — sets the status to
`accepted` and notifies the caller's socket when connected and the actor is
not the caller. -/
def accept (st : ServerState) (callId userId : String) : HttpResult :=
  match mapGet st.activeCalls callId with
  | none => { status := 404, state := st, emits := [] }
  | some callSession =>
    let cs1 := { callSession with status := CallStatus.accepted }
    let st1 := { st with activeCalls := mapSet st.activeCalls callId cs1 }
    let emits :=
      match mapGet st.userSockets callSession.callerId with
      | some callerSocketId =>
        if userId ≠ callSession.callerId then [⟨callerSocketId, Event.call_accepted callId⟩]
        else []
      | none => []
    { status := 200, state := st1, emits := emits }

/-- `app.post("/api/calls/:callId/reject")`: 404 if unknown; otherwise — with
no receiver check — sets status `rejected`, notifies the caller's socket when
connected, and deletes the record. -/
def reject (st : ServerState) (callId userId : String) : HttpResult :=
  match mapGet st.activeCalls callId with
  | none => { status := 404, state := st, emits := [] }
  | some callSession =>
    let cs1 := { callSession with status := CallStatus.rejected }
    let calls1 := mapDelete (mapSet st.activeCalls callId cs1) callId
    let emits :=
      match mapGet st.userSockets callSession.callerId with
      | some callerSocketId => [⟨callerSocketId, Event.call_rejected callId⟩]
      | none => []
    { status := 200, state := { st with activeCalls := calls1 }, emits := emits }

/-- `app.post("/api/calls/:callId/end")`: 404 if unknown; `userId` is used
only to resolve the other participant, never validated.  Sets status `ended`,
notifies the other participant's socket when connected, and deletes the
record. -/
def endCall (st : ServerState) (callId userId : String) : HttpResult :=
  match mapGet st.activeCalls callId with
  | none => { status := 404, state := st, emits := [] }
  | some callSession =>
    let cs1 := { callSession with status := CallStatus.ended }
    let calls1 := mapDelete (mapSet st.activeCalls callId cs1) callId
    let otherUserId :=
      if userId = callSession.callerId then callSession.receiverId
      else callSession.callerId
    let emits :=
      match mapGet st.userSockets otherUserId with
      | some otherUserSocketId => [⟨otherUserSocketId, Event.call_ended callId⟩]
      | none => []
    { status := 200, state := { st with activeCalls := calls1 }, emits := emits }

/-- `socket.on("disconnect")`: remove the first `userSockets` entry whose
socketId equals the disconnecting socket's id, then `break`.  No session
cascade: `activeCalls` is untouched and nothing is emitted. -/
def disconnect (st : ServerState) (socketId : String) : ServerState × List Emit :=
  match st.userSockets.find? (fun p => p.2 = socketId) with
  | none => (st, [])
  | some (userId, _) =>
    ({ st with userSockets := mapDelete st.userSockets userId }, [])

end Agora

namespace Rooms

/-- Room status (spec §3): `waiting` until the second participant joins,
`active` exactly when the room holds two participants. -/
inductive RoomStatus
  | waiting
  | active
deriving DecidableEq, Repr

/-- A room participant (spec §3): connection handle plus display name. -/
structure Participant where
  connectionHandle : String
  displayName : String
deriving DecidableEq, Repr

/-- Modelled from the spec: the Room record of §3.  The Room pairing engine
(§4.3) is described in the spec but has no implementation under `src/`. -/
structure Room where
  participants : List Participant
  status : RoomStatus
deriving DecidableEq, Repr

/-- Outcome of a `join` call (spec §4.3). -/
inductive JoinOutcome
  | roomNotFound
  | roomFull
  | joined (participantCount : Nat)
deriving DecidableEq, Repr

/-- Modelled from the spec: room codes compare case-insensitively (§3);
compared on the underlying characters. -/
def codeEq (a b : String) : Bool :=
  a.data.map Char.toLower = b.data.map Char.toLower

/-- Modelled from the spec: `join(code, connectionHandle, displayName)` of
§4.3, over the table of live rooms keyed by room code.  It fails with
`RoomNotFound` if no live room matches the code (room codes compare
case-insensitively, §3), `RoomFull` if the matched room is already at
capacity 2; otherwise it appends the participant and sets the room `active`
exactly when the second participant joins. -/
def join : List (String × Room) → String → String → String → JoinOutcome × List (String × Room)
  | [], _, _, _ => (JoinOutcome.roomNotFound, [])
  | (rc, room) :: rest, code, conn, name =>
    if codeEq rc code then
      if 2 ≤ room.participants.length then
        (JoinOutcome.roomFull, (rc, room) :: rest)
      else
        let ps := room.participants ++ [⟨conn, name⟩]
        let room1 : Room :=
          { participants := ps,
            status := if ps.length = 2 then RoomStatus.active else RoomStatus.waiting }
        (JoinOutcome.joined ps.length, (rc, room1) :: rest)
    else
      let r := join rest code conn name
      (r.1, (rc, room) :: r.2)

end Rooms

/-- Sample ringing session of the simple server, used for concrete runs. -/
def csRinging : Simple.CallSession :=
  { id := "c1", callerId := "A", receiverId := "B", orderTrackingId := "o",
    callerName := "n", callType := "voice", status := CallStatus.ringing }

/-- Sample already-accepted session of the simple server. -/
def csAccepted : Simple.CallSession :=
  { csRinging with status := CallStatus.accepted }

/-- Sample session of the Agora server, used for concrete runs. -/
def agCall : Agora.CallSession :=
  { id := "c1", channelName := "ch", callerId := "A", receiverId := "B",
    orderTrackingId := "o", callType := "voice", status := CallStatus.initiated,
    callerToken := "t1", receiverToken := "t2" }

/-- Sample empty room, used for concrete runs. -/
def roomEmpty : Rooms.Room :=
  { participants := [], status := Rooms.RoomStatus.waiting }

/-! ### Helper lemmas about the JS `Map` model -/

theorem mapSet_keys {β : Type} (m : List (String × β)) (k : String) (v : β) :
    (mapSet m k v).map Prod.fst =
      if m.any (fun p => p.1 = k) then m.map Prod.fst else m.map Prod.fst ++ [k] := by
  induction m with
  | nil => simp [mapSet]
  | cons hd tl ih =>
    obtain ⟨k', v'⟩ := hd
    by_cases h : k' = k
    · subst h; simp [mapSet]
    · simp only [mapSet, if_neg h, List.map_cons, List.any_cons, ih]
      by_cases ha : tl.any (fun p => p.1 = k) <;> simp [h, ha]

theorem keysNodup_mapSet {β : Type} (m : List (String × β)) (k : String) (v : β)
    (hnd : keysNodup m) : keysNodup (mapSet m k v) := by
  unfold keysNodup at hnd ⊢
  rw [mapSet_keys]
  split
  · exact hnd
  case isFalse ha =>
    have hk : k ∉ m.map Prod.fst := by
      intro hmem
      obtain ⟨p, hp, hpk⟩ := List.mem_map.mp hmem
      exact ha (List.any_eq_true.mpr ⟨p, hp, by simp [hpk]⟩)
    simp [List.nodup_append, hnd, List.disjoint_singleton, hk]

theorem mapGet_eq_none_of_not_mem_keys {β : Type} (m : List (String × β)) (k : String)
    (h : k ∉ m.map Prod.fst) : mapGet m k = none := by
  induction m with
  | nil => rfl
  | cons hd tl ih =>
    obtain ⟨k', v'⟩ := hd
    simp only [List.map_cons, List.mem_cons, not_or] at h
    have hk : k' ≠ k := fun hh => h.1 hh.symm
    simp [mapGet, hk, ih h.2]

theorem mapGet_mapDelete_self {β : Type} (m : List (String × β)) (k : String)
    (hnd : keysNodup m) : mapGet (mapDelete m k) k = none := by
  induction m with
  | nil => simp
  | cons hd tl ih =>
    obtain ⟨k', v'⟩ := hd
    simp only [keysNodup, List.map_cons, List.nodup_cons] at hnd
    by_cases h : k' = k
    · subst h
      rw [mapDelete_cons, if_pos rfl]
      exact mapGet_eq_none_of_not_mem_keys tl k' hnd.1
    · simp [mapDelete, h, mapGet, ih hnd.2]

theorem mapGet_of_mem_nodup {β : Type} (m : List (String × β)) (k : String) (v : β)
    (hnd : keysNodup m) (hmem : (k, v) ∈ m) : mapGet m k = some v := by
  induction m with
  | nil => simp at hmem
  | cons hd tl ih =>
    obtain ⟨k', v'⟩ := hd
    simp only [keysNodup, List.map_cons, List.nodup_cons] at hnd
    rcases List.mem_cons.mp hmem with heq | htl
    · rw [Prod.mk.injEq] at heq
      obtain ⟨rfl, rfl⟩ := heq
      simp [mapGet]
    · have hk : k' ≠ k := by
        rintro rfl
        exact hnd.1 (List.mem_map_of_mem Prod.fst htl)
      simp [mapGet, hk, ih hnd.2 htl]

theorem not_mem_keys_filter {β : Type} (m : List (String × β)) (k : String)
    (q : String × β → Bool) (h : k ∉ m.map Prod.fst) :
    k ∉ (m.filter q).map Prod.fst := by
  intro hmem
  obtain ⟨p, hp, hpk⟩ := List.mem_map.mp hmem
  exact h (hpk ▸ List.mem_map_of_mem Prod.fst (List.mem_of_mem_filter hp))

theorem mapGet_filter_of_pred_false {β : Type} (m : List (String × β)) (k : String) (v : β)
    (q : β → Bool) (hget : mapGet m k = some v) (hq : q v = false) :
    mapGet (m.filter fun p => !(q p.2)) k = some v := by
  induction m with
  | nil => simp at hget
  | cons hd tl ih =>
    obtain ⟨k', v'⟩ := hd
    by_cases hk : k' = k
    · subst hk
      rw [mapGet_cons, if_pos rfl] at hget
      obtain rfl : v' = v := Option.some.injEq .. ▸ hget
      simp [List.filter_cons, hq, mapGet]
    · rw [mapGet_cons, if_neg hk] at hget
      by_cases hq' : q v' = true
      · simp [List.filter_cons, hq', ih hget]
      · simp only [Bool.not_eq_true] at hq'
        simp [List.filter_cons, hq', mapGet, hk, ih hget]

theorem mapGet_filter_of_pred_true {β : Type} (m : List (String × β)) (k : String) (v : β)
    (q : β → Bool) (hnd : keysNodup m) (hget : mapGet m k = some v) (hq : q v = true) :
    mapGet (m.filter fun p => !(q p.2)) k = none := by
  induction m with
  | nil => simp at hget
  | cons hd tl ih =>
    obtain ⟨k', v'⟩ := hd
    simp only [keysNodup, List.map_cons, List.nodup_cons] at hnd
    by_cases hk : k' = k
    · subst hk
      rw [mapGet_cons, if_pos rfl] at hget
      obtain rfl : v' = v := Option.some.injEq .. ▸ hget
      rw [List.filter_cons]
      simp only [hq, Bool.not_true, Bool.false_eq_true, if_neg]
      exact mapGet_eq_none_of_not_mem_keys _ _
        (not_mem_keys_filter tl k' _ hnd.1)
    · rw [mapGet_cons, if_neg hk] at hget
      by_cases hq' : q v' = true
      · simp [List.filter_cons, hq', ih hnd.2 hget]
      · simp only [Bool.not_eq_true] at hq'
        simp [List.filter_cons, hq', mapGet, hk, ih hnd.2 hget]

/-! ### The busy invariant of the simple server -/

namespace Simple

theorem countBusy_cons (k : String) (v : CallSession) (l : List (String × CallSession))
    (uid : String) :
    countBusy ((k, v) :: l) uid = (if busyFor v uid then 1 else 0) + countBusy l uid := by
  by_cases h : busyFor v uid <;>
    simp [countBusy, List.filter_cons, h, Nat.add_comm]

theorem countBusy_eq_zero_of_any_false (calls : List (String × CallSession)) (uid : String)
    (h : (calls.any fun p => busyFor p.2 uid) = false) : countBusy calls uid = 0 := by
  induction calls with
  | nil => rfl
  | cons hd tl ih =>
    obtain ⟨k, v⟩ := hd
    simp only [List.any_cons, Bool.or_eq_false_iff] at h
    rw [countBusy_cons, ih h.2, h.1]
    simp

theorem countBusy_eq_zero_of_not_isBusy (st : ServerState) (uid : String)
    (h : isBusy st uid = false) : countBusy st.activeCalls uid = 0 := by
  unfold isBusy at h
  exact countBusy_eq_zero_of_any_false st.activeCalls uid h

theorem countBusy_mapSet_le (calls : List (String × CallSession)) (k : String)
    (v : CallSession) (uid : String) (hv : busyFor v uid = false) :
    countBusy (mapSet calls k v) uid ≤ countBusy calls uid := by
  induction calls with
  | nil => simp [mapSet, countBusy, hv]
  | cons hd tl ih =>
    obtain ⟨k', v'⟩ := hd
    by_cases h : k' = k
    · subst h
      rw [mapSet_cons, if_pos rfl, countBusy_cons, countBusy_cons, hv]
      simp [Nat.le_add_left]
    · rw [mapSet_cons, if_neg h, countBusy_cons, countBusy_cons]
      exact Nat.add_le_add_left ih _

theorem countBusy_mapSet_le_one (calls : List (String × CallSession)) (k : String)
    (v : CallSession) (uid : String) (h0 : countBusy calls uid = 0) :
    countBusy (mapSet calls k v) uid ≤ 1 := by
  induction calls with
  | nil =>
    simp only [mapSet_nil, countBusy_cons]
    split <;> simp [countBusy]
  | cons hd tl ih =>
    obtain ⟨k', v'⟩ := hd
    rw [countBusy_cons] at h0
    have hv' : (if busyFor v' uid then 1 else 0) = 0 := Nat.eq_zero_of_add_eq_zero_right h0
    have htl : countBusy tl uid = 0 := Nat.eq_zero_of_add_eq_zero_left h0
    by_cases h : k' = k
    · subst h
      rw [mapSet_cons, if_pos rfl, countBusy_cons, htl]
      split <;> simp
    · rw [mapSet_cons, if_neg h, countBusy_cons, hv', Nat.zero_add]
      exact ih htl

theorem initiateSimple_state_char (st : ServerState) (r : InitReq) :
    (initiateSimple st r).state.activeCalls = st.activeCalls ∨
      (isBusy st r.callerId = false ∧ isBusy st r.receiverId = false ∧
        (initiateSimple st r).state.activeCalls =
          mapSet st.activeCalls r.newCallId (newSession r)) := by
  unfold initiateSimple
  split
  · left; rfl
  split
  · left; rfl
  split
  · left; rfl
  case isFalse h1 h2 h3 =>
    right
    refine ⟨Bool.eq_false_iff.mpr h2, Bool.eq_false_iff.mpr h3, ?_⟩
    dsimp only
    cases hmg : mapGet st.users r.receiverId <;> simp [hmg, newSession]

theorem busyFor_newSession (r : InitReq) (uid : String) :
    busyFor (newSession r) uid = (r.callerId = uid || r.receiverId = uid) := by
  simp [busyFor, newSession]

theorem noDoubleBooking_initiateSimple (st : ServerState) (r : InitReq)
    (h : noDoubleBooking st) : noDoubleBooking (initiateSimple st r).state := by
  intro uid
  rcases initiateSimple_state_char st r with hsame | ⟨hc, hr, hins⟩
  · rw [hsame]; exact h uid
  · rw [hins]
    by_cases hb : busyFor (newSession r) uid = true
    · rw [busyFor_newSession] at hb
      have h0 : countBusy st.activeCalls uid = 0 := by
        rcases Bool.or_eq_true_iff.mp hb with hcu | hru
        · have hcu' : r.callerId = uid := by simpa using hcu
          rw [← hcu']
          exact countBusy_eq_zero_of_not_isBusy st _ hc
        · have hru' : r.receiverId = uid := by simpa using hru
          rw [← hru']
          exact countBusy_eq_zero_of_not_isBusy st _ hr
      exact countBusy_mapSet_le_one _ _ _ _ h0
    · exact le_trans
        (countBusy_mapSet_le _ _ _ _ (Bool.eq_false_iff.mpr hb)) (h uid)

theorem noDoubleBooking_foldl (reqs : List InitReq) :
    ∀ st : ServerState, noDoubleBooking st →
      noDoubleBooking (reqs.foldl (fun st r => (initiateSimple st r).state) st) := by
  induction reqs with
  | nil => intro st h; exact h
  | cons r rest ih =>
    intro st h
    exact ih _ (noDoubleBooking_initiateSimple st r h)

theorem noDoubleBooking_runInitiates (users : List (String × String)) (reqs : List InitReq) :
    noDoubleBooking (runInitiates users reqs) := by
  apply noDoubleBooking_foldl
  intro uid
  simp [countBusy]

/-! ### The disconnect cascade of the simple server -/

theorem countEmit_nil (t : String) (e : Event) : countEmit [] t e = 0 := rfl

theorem countEmit_append (es₁ es₂ : List Emit) (t : String) (e : Event) :
    countEmit (es₁ ++ es₂) t e = countEmit es₁ t e + countEmit es₂ t e := by
  simp [countEmit, List.filter_append]

theorem disconnect_eq_of_find?_none (st : ServerState) (socketId : String)
    (h : st.users.find? (fun p => p.2 = socketId) = none) :
    disconnect st socketId = (st, []) := by
  unfold disconnect
  rw [h]

theorem disconnect_eq_of_find?_some (st : ServerState) (socketId userId sid : String)
    (h : st.users.find? (fun p => p.2 = socketId) = some (userId, sid)) :
    disconnect st socketId =
      ({ users := mapDelete st.users userId,
         activeCalls := st.activeCalls.filter fun p => !(involves p.2 userId) },
       cascadeEmits st.activeCalls userId) := by
  unfold disconnect
  rw [h]
  rfl

theorem cascadeEmits_count_zero (calls : List (String × CallSession)) (uid cid t : String)
    (h : cid ∉ calls.map Prod.fst) :
    countEmit (cascadeEmits calls uid) t (Event.call_ended cid) = 0 := by
  induction calls with
  | nil => rfl
  | cons hd tl ih =>
    obtain ⟨k, v⟩ := hd
    simp only [List.map_cons, List.mem_cons, not_or] at h
    have hk : k ≠ cid := fun hh => h.1 hh.symm
    by_cases hinv : involves v uid = true
    · simp only [cascadeEmits, List.filter_cons, hinv, if_pos, List.flatMap_cons]
      rw [show ((tl.filter fun p => involves p.2 uid).flatMap fun p =>
          [⟨p.2.callerId, Event.call_ended p.1⟩, ⟨p.2.receiverId, Event.call_ended p.1⟩]) =
          cascadeEmits tl uid from rfl, countEmit_append, ih h.2]
      simp [countEmit, List.filter_cons, hk]
    · simp only [Bool.not_eq_true] at hinv
      simp only [cascadeEmits, List.filter_cons, hinv]
      exact ih h.2

theorem cascadeEmits_count_one (calls : List (String × CallSession)) (uid cid : String)
    (cs : CallSession) (hnd : keysNodup calls) (hget : mapGet calls cid = some cs)
    (hinv : involves cs uid = true) (hne : cs.callerId ≠ cs.receiverId) :
    countEmit (cascadeEmits calls uid) (otherParty cs uid) (Event.call_ended cid) = 1 := by
  induction calls with
  | nil => simp at hget
  | cons hd tl ih =>
    obtain ⟨k, v⟩ := hd
    simp only [keysNodup, List.map_cons, List.nodup_cons] at hnd
    by_cases hk : k = cid
    · subst hk
      rw [mapGet_cons, if_pos rfl] at hget
      obtain rfl : v = cs := Option.some.injEq .. ▸ hget
      simp only [cascadeEmits, List.filter_cons, hinv, if_pos, List.flatMap_cons]
      rw [show ((tl.filter fun p => involves p.2 uid).flatMap fun p =>
          [⟨p.2.callerId, Event.call_ended p.1⟩, ⟨p.2.receiverId, Event.call_ended p.1⟩]) =
          cascadeEmits tl uid from rfl, countEmit_append,
        cascadeEmits_count_zero tl uid k _ hnd.1]
      unfold otherParty
      by_cases hc : v.callerId = uid
      · have h1 : ¬(v.callerId = v.receiverId) := hne
        have h3 : ¬(uid = v.receiverId) := fun hh => h1 (hc.trans hh)
        simp [countEmit, List.filter_cons, hc, h1, h3]
      · have h2 : ¬(v.receiverId = v.callerId) := fun hh => hne hh.symm
        simp [countEmit, List.filter_cons, hc, h2]
    · rw [mapGet_cons, if_neg hk] at hget
      have hrest := ih hnd.2 hget
      by_cases hinv' : involves v uid = true
      · simp only [cascadeEmits, List.filter_cons, hinv', if_pos, List.flatMap_cons]
        rw [show ((tl.filter fun p => involves p.2 uid).flatMap fun p =>
            [⟨p.2.callerId, Event.call_ended p.1⟩, ⟨p.2.receiverId, Event.call_ended p.1⟩]) =
            cascadeEmits tl uid from rfl, countEmit_append, hrest]
        simp [countEmit, List.filter_cons, hk]
      · simp only [Bool.not_eq_true] at hinv'
        simp only [cascadeEmits, List.filter_cons, hinv']
        exact hrest

theorem initiateSimple_busy (st : ServerState) (r : InitReq)
    (hc : ¬r.callerId = "") (hr : ¬r.receiverId = "")
    (hb : isBusy st r.callerId = true ∨ isBusy st r.receiverId = true) :
    initiateSimple st r = ⟨409, st, []⟩ := by
  unfold initiateSimple
  split
  case isTrue h => simp [hc, hr] at h
  case isFalse h =>
    split
    · rfl
    case isFalse h2 =>
      split
      · rfl
      case isFalse h3 =>
        rcases hb with hb | hb
        · exact absurd hb h2
        · exact absurd hb h3

theorem accept_found (st : ServerState) (callId userId : String) (cs : CallSession)
    (hget : mapGet st.activeCalls callId = some cs) (hrecv : cs.receiverId = userId) :
    (accept st callId userId).status = 200 ∧
    mapGet (accept st callId userId).state.activeCalls callId =
      some { cs with status := CallStatus.accepted } := by
  simp only [accept, hget]
  rw [if_neg (by simp [hrecv])]
  exact ⟨rfl, mapGet_mapSet_self ..⟩

theorem accept_forbidden (st : ServerState) (callId userId : String) (cs : CallSession)
    (hget : mapGet st.activeCalls callId = some cs) (hrecv : cs.receiverId ≠ userId) :
    accept st callId userId = ⟨403, st, []⟩ := by
  simp only [accept, hget]
  rw [if_pos hrecv]

theorem accept_notFound (st : ServerState) (callId userId : String)
    (hget : mapGet st.activeCalls callId = none) :
    accept st callId userId = ⟨404, st, []⟩ := by
  simp only [accept, hget]

theorem reject_found (st : ServerState) (callId userId : String) (cs : CallSession)
    (hnd : keysNodup st.activeCalls)
    (hget : mapGet st.activeCalls callId = some cs) (hrecv : cs.receiverId = userId) :
    (reject st callId userId).status = 200 ∧
    mapGet (reject st callId userId).state.activeCalls callId = none := by
  simp only [reject, hget]
  rw [if_neg (by simp [hrecv])]
  exact ⟨rfl, mapGet_mapDelete_self _ _ (keysNodup_mapSet _ _ _ hnd)⟩

theorem reject_forbidden (st : ServerState) (callId userId : String) (cs : CallSession)
    (hget : mapGet st.activeCalls callId = some cs) (hrecv : cs.receiverId ≠ userId) :
    reject st callId userId = ⟨403, st, []⟩ := by
  simp only [reject, hget]
  rw [if_pos hrecv]

theorem reject_notFound (st : ServerState) (callId userId : String)
    (hget : mapGet st.activeCalls callId = none) :
    reject st callId userId = ⟨404, st, []⟩ := by
  simp only [reject, hget]

theorem endCall_found (st : ServerState) (callId userId : String) (cs : CallSession)
    (hnd : keysNodup st.activeCalls)
    (hget : mapGet st.activeCalls callId = some cs) :
    (endCall st callId userId).status = 200 ∧
    mapGet (endCall st callId userId).state.activeCalls callId = none := by
  simp only [endCall, hget]
  exact ⟨trivial, mapGet_mapDelete_self _ _ (keysNodup_mapSet _ _ _ hnd)⟩

theorem endCall_notFound (st : ServerState) (callId userId : String)
    (hget : mapGet st.activeCalls callId = none) :
    endCall st callId userId = ⟨404, st, []⟩ := by
  simp only [endCall, hget]

theorem disconnect_users_preserved (st : ServerState) (sid P c : String)
    (hnd : keysNodup st.users) (hget : mapGet st.users P = some c) (hne : c ≠ sid) :
    mapGet (disconnect st sid).1.users P = some c := by
  cases hf : st.users.find? (fun p => p.2 = sid) with
  | none => rw [disconnect_eq_of_find?_none st sid hf]; exact hget
  | some u =>
    obtain ⟨Q, v⟩ := u
    have hv : v = sid := by simpa using List.find?_some hf
    rw [disconnect_eq_of_find?_some st sid Q v hf]
    have hQP : Q ≠ P := by
      rintro rfl
      have hmem := mapGet_of_mem_nodup st.users Q v hnd (List.mem_of_find?_eq_some hf)
      rw [hget] at hmem
      have hcv : c = v := by injection hmem
      exact hne (hcv.trans hv)
    exact (mapGet_mapDelete_ne st.users Q P hnd hQP).trans hget

end Simple

namespace Agora

theorem agAccept_found (st : ServerState) (callId userId : String) (cs : CallSession)
    (hget : mapGet st.activeCalls callId = some cs) :
    (accept st callId userId).status = 200 ∧
    mapGet (accept st callId userId).state.activeCalls callId =
      some { cs with status := CallStatus.accepted } := by
  simp only [accept, hget]
  exact ⟨trivial, mapGet_mapSet_self ..⟩

theorem agReject_found (st : ServerState) (callId userId : String) (cs : CallSession)
    (hnd : keysNodup st.activeCalls)
    (hget : mapGet st.activeCalls callId = some cs) :
    (reject st callId userId).status = 200 ∧
    mapGet (reject st callId userId).state.activeCalls callId = none := by
  simp only [reject, hget]
  exact ⟨trivial, mapGet_mapDelete_self _ _ (keysNodup_mapSet _ _ _ hnd)⟩

theorem agReject_status_found (st : ServerState) (callId userId : String) (cs : CallSession)
    (hget : mapGet st.activeCalls callId = some cs) :
    (reject st callId userId).status = 200 := by
  simp [reject, hget]

theorem agReject_notFound (st : ServerState) (callId userId : String)
    (hget : mapGet st.activeCalls callId = none) :
    reject st callId userId = ⟨404, st, []⟩ := by
  simp only [reject, hget]

theorem agEndCall_found (st : ServerState) (callId userId : String) (cs : CallSession)
    (hnd : keysNodup st.activeCalls)
    (hget : mapGet st.activeCalls callId = some cs) :
    (endCall st callId userId).status = 200 ∧
    mapGet (endCall st callId userId).state.activeCalls callId = none := by
  simp only [endCall, hget]
  exact ⟨trivial, mapGet_mapDelete_self _ _ (keysNodup_mapSet _ _ _ hnd)⟩

theorem agEndCall_notFound (st : ServerState) (callId userId : String)
    (hget : mapGet st.activeCalls callId = none) :
    endCall st callId userId = ⟨404, st, []⟩ := by
  simp only [endCall, hget]

theorem disconnect_no_cascade (st : ServerState) (sid : String) :
    (disconnect st sid).2 = [] ∧ (disconnect st sid).1.activeCalls = st.activeCalls := by
  cases hf : st.userSockets.find? (fun p => p.2 = sid) with
  | none => simp [disconnect, hf]
  | some u =>
    obtain ⟨Q, v⟩ := u
    simp [disconnect, hf]

theorem agDisconnect_users_preserved (st : ServerState) (sid P c : String)
    (hnd : keysNodup st.userSockets) (hget : mapGet st.userSockets P = some c)
    (hne : c ≠ sid) :
    mapGet (disconnect st sid).1.userSockets P = some c := by
  cases hf : st.userSockets.find? (fun p => p.2 = sid) with
  | none => simp only [disconnect, hf]; exact hget
  | some u =>
    obtain ⟨Q, v⟩ := u
    have hv : v = sid := by simpa using List.find?_some hf
    simp only [disconnect, hf]
    have hQP : Q ≠ P := by
      rintro rfl
      have hmem := mapGet_of_mem_nodup st.userSockets Q v hnd (List.mem_of_find?_eq_some hf)
      rw [hget] at hmem
      have hcv : c = v := by injection hmem
      exact hne (hcv.trans hv)
    exact (mapGet_mapDelete_ne st.userSockets Q P hnd hQP).trans hget

end Agora

namespace Rooms

theorem join_not_found (rooms : List (String × Room)) (code conn name : String)
    (h : ∀ p ∈ rooms, codeEq p.1 code = false) :
    join rooms code conn name = (JoinOutcome.roomNotFound, rooms) := by
  induction rooms with
  | nil => rfl
  | cons hd rest ih =>
    obtain ⟨rc, room⟩ := hd
    have hm : codeEq rc code = false := h (rc, room) (List.mem_cons_self _ _)
    have hrest := ih fun p hp => h p (List.mem_cons_of_mem _ hp)
    simp [join, hm, hrest]

theorem join_cons_skip (rc : String) (room : Room) (rest : List (String × Room))
    (code conn name : String) (hm : codeEq rc code = false) :
    join ((rc, room) :: rest) code conn name =
      ((join rest code conn name).1, (rc, room) :: (join rest code conn name).2) := by
  simp [join, hm]

theorem join_cons_full (rc : String) (room : Room) (rest : List (String × Room))
    (code conn name : String) (hm : codeEq rc code = true)
    (hfull : 2 ≤ room.participants.length) :
    join ((rc, room) :: rest) code conn name = (JoinOutcome.roomFull, (rc, room) :: rest) := by
  rw [join, if_pos hm, if_pos hfull]

theorem join_cons_space (rc : String) (room : Room) (rest : List (String × Room))
    (code conn name : String) (hm : codeEq rc code = true)
    (hfull : ¬2 ≤ room.participants.length) :
    join ((rc, room) :: rest) code conn name =
      (JoinOutcome.joined (room.participants ++ [(⟨conn, name⟩ : Participant)]).length,
       (rc,
         { participants := room.participants ++ [(⟨conn, name⟩ : Participant)],
           status :=
             if (room.participants ++ [(⟨conn, name⟩ : Participant)]).length = 2 then
               RoomStatus.active
             else RoomStatus.waiting }) :: rest) := by
  rw [join, if_pos hm, if_neg hfull]

theorem join_third_full (rooms : List (String × Room)) (code c1 n1 c2 n2 c3 n3 : String)
    (k1 k2 : Nat)
    (h1 : (join rooms code c1 n1).1 = JoinOutcome.joined k1)
    (h2 : (join (join rooms code c1 n1).2 code c2 n2).1 = JoinOutcome.joined k2) :
    (join (join (join rooms code c1 n1).2 code c2 n2).2 code c3 n3).1 =
      JoinOutcome.roomFull := by
  induction rooms with
  | nil => simp [join] at h1
  | cons hd rest ih =>
    obtain ⟨rc, room⟩ := hd
    by_cases hm : codeEq rc code = true
    · by_cases hl1 : 2 ≤ room.participants.length
      · rw [join_cons_full rc room rest code c1 n1 hm hl1] at h1
        simp at h1
      · rw [join_cons_space rc room rest code c1 n1 hm hl1] at h2 ⊢
        dsimp only at h2 ⊢
        by_cases hl2 : 2 ≤ (room.participants ++ [(⟨c1, n1⟩ : Participant)]).length
        · rw [join_cons_full _ _ rest code c2 n2 hm hl2] at h2
          simp at h2
        · rw [join_cons_space _ _ rest code c2 n2 hm hl2] at h2 ⊢
          dsimp only at h2 ⊢
          have hl3 : 2 ≤ ((room.participants ++ [(⟨c1, n1⟩ : Participant)]) ++
              [(⟨c2, n2⟩ : Participant)]).length := by
            simp only [List.length_append, List.length_cons, List.length_nil]
            omega
          rw [join_cons_full _ _ rest code c3 n3 hm hl3]
    · rw [Bool.not_eq_true] at hm
      rw [join_cons_skip rc room rest code c1 n1 hm] at h1 h2 ⊢
      dsimp only at h1 h2 ⊢
      rw [join_cons_skip rc room _ code c2 n2 hm] at h2 ⊢
      dsimp only at h2 ⊢
      rw [join_cons_skip rc room _ code c3 n3 hm]
      exact ih h1 h2

end Rooms

/-! ### Claims -/

/-- C1: the claim as stated fails on `src/server/server.js`: its
`/api/calls/initiate` endpoint performs no busy check.  Starting from an
empty store, a first initiate by caller `"A"` leaves `"A"` with a stored
session whose status (`"initiated"`) is neither `ended` nor `rejected`, yet
a second initiate by the same caller still returns 200 and inserts a second
session, so `"A"` then holds two simultaneously non-terminal sessions. -/
theorem C1_counterexample :
    (Agora.initiate ⟨[], []⟩ ⟨"A", "B", "o1", "voice", 1, "t1", "t2"⟩).status = 200 ∧
    ((Agora.initiate ⟨[], []⟩ ⟨"A", "B", "o1", "voice", 1, "t1", "t2"⟩).state.activeCalls.any
        fun p => p.2.status ≠ CallStatus.ended && p.2.status ≠ CallStatus.rejected &&
          (p.2.callerId = "A" || p.2.receiverId = "A")) = true ∧
    (Agora.initiate (Agora.initiate ⟨[], []⟩ ⟨"A", "B", "o1", "voice", 1, "t1", "t2"⟩).state
        ⟨"A", "C", "o2", "voice", 2, "t3", "t4"⟩).status = 200 ∧
    ((Agora.initiate (Agora.initiate ⟨[], []⟩ ⟨"A", "B", "o1", "voice", 1, "t1", "t2"⟩).state
        ⟨"A", "C", "o2", "voice", 2, "t3", "t4"⟩).state.activeCalls.countP
        fun p => p.2.status ≠ CallStatus.ended && p.2.status ≠ CallStatus.rejected &&
          (p.2.callerId = "A" || p.2.receiverId = "A")) = 2 := by
  decide

/-- C1 (amended): the busy-check property holds for the simple server
(`src/src/server.js`): over every sequence of `initiate-simple` requests no
participant is ever caller or receiver of two simultaneously non-terminal
stored sessions, and an initiate whose caller or receiver is busy fails with
409 and changes nothing; in `src/server/server.js`, by contrast, `initiate`
performs no busy check and always responds 200. -/
theorem C1_busy_invariant_amended :
    (∀ (users : List (String × String)) (reqs : List Simple.InitReq),
        Simple.noDoubleBooking (Simple.runInitiates users reqs)) ∧
    (∀ (st : Simple.ServerState) (r : Simple.InitReq),
        r.callerId ≠ "" → r.receiverId ≠ "" →
        (Simple.isBusy st r.callerId = true ∨ Simple.isBusy st r.receiverId = true) →
        Simple.initiateSimple st r = ⟨409, st, []⟩) ∧
    (∀ (st : Agora.ServerState) (r : Agora.InitReq), (Agora.initiate st r).status = 200) :=
  ⟨Simple.noDoubleBooking_runInitiates,
   fun st r hc hr hb => Simple.initiateSimple_busy st r hc hr hb,
   fun _ _ => rfl⟩

/-- C1 witness: concrete application of the 409 branch — caller `"A"` already
holds a ringing session, so a fresh initiate by `"A"` is refused and the
store is untouched. -/
theorem C1_busy_invariant_amended_witness :
    Simple.initiateSimple
        ⟨[], [("c0",
          { id := "c0", callerId := "A", receiverId := "B", orderTrackingId := "o",
            callerName := "n", callType := "voice", status := CallStatus.ringing })]⟩
        ⟨"A", "C", "o2", "n", "voice", "c1"⟩ =
      ⟨409,
        ⟨[], [("c0",
          { id := "c0", callerId := "A", receiverId := "B", orderTrackingId := "o",
            callerName := "n", callType := "voice", status := CallStatus.ringing })]⟩,
        []⟩ :=
  C1_busy_invariant_amended.2.1 _ _ (by decide) (by decide) (Or.inl (by decide))

/-- C2: the claim fails on the code.  In `src/src/server.js` the session is
stored *before* the receiver-reachability check: with an empty presence
table, `initiate-simple` answers 404 (`ReceiverUnreachable`) yet the store is
no longer what it was — the ringing session is still in it. -/
theorem C2_counterexample :
    (Simple.initiateSimple ⟨[], []⟩ ⟨"A", "B", "o", "n", "voice", "c1"⟩).status = 404 ∧
    (Simple.initiateSimple ⟨[], []⟩ ⟨"A", "B", "o", "n", "voice", "c1"⟩).state.activeCalls ≠ [] ∧
    mapGet (Simple.initiateSimple ⟨[], []⟩
        ⟨"A", "B", "o", "n", "voice", "c1"⟩).state.activeCalls "c1" =
      some { id := "c1", callerId := "A", receiverId := "B", orderTrackingId := "o",
             callerName := "n", callType := "voice", status := CallStatus.ringing } := by
  decide

/-- C2 (amended): when `initiate-simple` fails with `ReceiverUnreachable`
(HTTP 404), the session has already been committed: the reachability check
runs only after the insert, so the failed initiate leaves the new ringing
session in the store. -/
theorem C2_residual_session (st : Simple.ServerState) (r : Simple.InitReq)
    (hc : r.callerId ≠ "") (hr : r.receiverId ≠ "")
    (hbc : Simple.isBusy st r.callerId = false) (hbr : Simple.isBusy st r.receiverId = false)
    (hun : mapGet st.users r.receiverId = none) :
    (Simple.initiateSimple st r).status = 404 ∧
    mapGet (Simple.initiateSimple st r).state.activeCalls r.newCallId =
      some (Simple.newSession r) := by
  unfold Simple.initiateSimple
  rw [if_neg (by simp [hc, hr]), if_neg (by simp [hbc]), if_neg (by simp [hbr])]
  dsimp only
  rw [hun]
  exact ⟨rfl, mapGet_mapSet_self ..⟩

/-- C2 witness: the amended fact at the concrete 404 run of the
counterexample state. -/
theorem C2_residual_session_witness :
    (Simple.initiateSimple ⟨[], []⟩ ⟨"A", "B", "o", "n", "voice", "c1"⟩).status = 404 ∧
    mapGet (Simple.initiateSimple ⟨[], []⟩
        ⟨"A", "B", "o", "n", "voice", "c1"⟩).state.activeCalls "c1" =
      some (Simple.newSession ⟨"A", "B", "o", "n", "voice", "c1"⟩) :=
  C2_residual_session ⟨[], []⟩ ⟨"A", "B", "o", "n", "voice", "c1"⟩
    (by decide) (by decide) (by decide) (by decide) (by decide)

/-- C3: the claim fails on the code.  Neither accept endpoint checks the
current status.  Run against `src/src/server.js`: initiate (receiver `"B"`
connected) then accept by `"B"` leaves the stored session with status
`accepted`; a second accept by `"B"` on that very session still answers 200
instead of failing with `InvalidTransition` (409). -/
theorem C3_counterexample :
    (mapGet (Simple.accept
        (Simple.initiateSimple ⟨[("B", "s1")], []⟩ ⟨"A", "B", "o", "n", "voice", "c1"⟩).state
        "c1" "B").state.activeCalls "c1").map Simple.CallSession.status =
      some CallStatus.accepted ∧
    (Simple.accept
      (Simple.accept
        (Simple.initiateSimple ⟨[("B", "s1")], []⟩ ⟨"A", "B", "o", "n", "voice", "c1"⟩).state
        "c1" "B").state "c1" "B").status = 200 := by
  decide

/-- C3 (amended): accept never inspects the session's current status: in
`src/src/server.js`, whenever the session exists and the actor is its
receiver, accept answers 200 and (re)stores the session with status
`accepted`, whatever the previous status was — in particular accept on an
already-accepted session succeeds again; in `src/server/server.js` accept on
any existing session answers 200 with no check at all. -/
theorem C3_accept_ignores_status :
    (∀ (st : Simple.ServerState) (callId userId : String) (cs : Simple.CallSession),
        mapGet st.activeCalls callId = some cs → cs.receiverId = userId →
        (Simple.accept st callId userId).status = 200 ∧
        mapGet (Simple.accept st callId userId).state.activeCalls callId =
          some { cs with status := CallStatus.accepted }) ∧
    (∀ (st : Agora.ServerState) (callId userId : String) (cs : Agora.CallSession),
        mapGet st.activeCalls callId = some cs →
        (Agora.accept st callId userId).status = 200 ∧
        mapGet (Agora.accept st callId userId).state.activeCalls callId =
          some { cs with status := CallStatus.accepted }) :=
  ⟨fun st c u cs hget hrecv => Simple.accept_found st c u cs hget hrecv,
   fun st c u cs hget => Agora.agAccept_found st c u cs hget⟩

/-- C3 witness: accept by the receiver on a session already in status
`accepted` answers 200 and keeps the status `accepted`. -/
theorem C3_accept_ignores_status_witness :
    (Simple.accept ⟨[], [("c1", csAccepted)]⟩ "c1" "B").status = 200 ∧
    mapGet (Simple.accept ⟨[], [("c1", csAccepted)]⟩ "c1" "B").state.activeCalls "c1" =
      some { csAccepted with status := CallStatus.accepted } :=
  C3_accept_ignores_status.1 ⟨[], [("c1", csAccepted)]⟩ "c1" "B" csAccepted
    (by decide) (by decide)

/-- C4: the claim fails on `src/server/server.js`: its accept and reject
endpoints never check that the actor is the receiver.  With stored session
`"c1"` (caller `"A"`, receiver `"B"`), accept and reject by the stranger
`"Z"` both answer 200 — and reject even removes the session — instead of
failing with 403 and leaving state unchanged. -/
theorem C4_counterexample :
    "Z" ≠ agCall.receiverId ∧
    (Agora.accept ⟨[("c1", agCall)], []⟩ "c1" "Z").status = 200 ∧
    (Agora.reject ⟨[("c1", agCall)], []⟩ "c1" "Z").status = 200 ∧
    mapGet (Agora.reject ⟨[("c1", agCall)], []⟩ "c1" "Z").state.activeCalls "c1" = none := by
  decide

/-- C4 (amended): in `src/src/server.js`, accept and reject on an existing
session do fail with 403 and change nothing (no state change, no emission)
whenever the acting userId is not the session's receiverId; in
`src/server/server.js`, accept and reject perform no receiver check and
answer 200 for every userId on an existing session. -/
theorem C4_forbidden_amended :
    (∀ (st : Simple.ServerState) (callId userId : String) (cs : Simple.CallSession),
        mapGet st.activeCalls callId = some cs → cs.receiverId ≠ userId →
        Simple.accept st callId userId = ⟨403, st, []⟩ ∧
        Simple.reject st callId userId = ⟨403, st, []⟩) ∧
    (∀ (st : Agora.ServerState) (callId userId : String) (cs : Agora.CallSession),
        mapGet st.activeCalls callId = some cs →
        (Agora.accept st callId userId).status = 200 ∧
        (Agora.reject st callId userId).status = 200) :=
  ⟨fun st c u cs hget hne =>
    ⟨Simple.accept_forbidden st c u cs hget hne, Simple.reject_forbidden st c u cs hget hne⟩,
   fun st c u cs hget =>
    ⟨(Agora.agAccept_found st c u cs hget).1, Agora.agReject_status_found st c u cs hget⟩⟩

/-- C4 witness: the simple server refuses accept and reject by the stranger
`"Z"` on session `"c1"` (receiver `"B"`) with 403 and an untouched state. -/
theorem C4_forbidden_amended_witness :
    Simple.accept ⟨[], [("c1", csRinging)]⟩ "c1" "Z" =
      ⟨403, ⟨[], [("c1", csRinging)]⟩, []⟩ ∧
    Simple.reject ⟨[], [("c1", csRinging)]⟩ "c1" "Z" =
      ⟨403, ⟨[], [("c1", csRinging)]⟩, []⟩ :=
  C4_forbidden_amended.1 ⟨[], [("c1", csRinging)]⟩ "c1" "Z" csRinging
    (by decide) (by decide)

/-- C5: confirmed.  In both servers a successful reject or end immediately
removes the session record, and a reject or end on an absent session id
answers 404 and changes nothing — so terminal sessions are never retained
and double invocation is safe. -/
theorem C5_terminal_not_retained :
    (∀ (st : Simple.ServerState) (callId userId : String) (cs : Simple.CallSession),
        keysNodup st.activeCalls → mapGet st.activeCalls callId = some cs →
        cs.receiverId = userId →
        (Simple.reject st callId userId).status = 200 ∧
        mapGet (Simple.reject st callId userId).state.activeCalls callId = none) ∧
    (∀ (st : Simple.ServerState) (callId userId : String) (cs : Simple.CallSession),
        keysNodup st.activeCalls → mapGet st.activeCalls callId = some cs →
        (Simple.endCall st callId userId).status = 200 ∧
        mapGet (Simple.endCall st callId userId).state.activeCalls callId = none) ∧
    (∀ (st : Simple.ServerState) (callId userId : String),
        mapGet st.activeCalls callId = none →
        Simple.reject st callId userId = ⟨404, st, []⟩ ∧
        Simple.endCall st callId userId = ⟨404, st, []⟩) ∧
    (∀ (st : Agora.ServerState) (callId userId : String) (cs : Agora.CallSession),
        keysNodup st.activeCalls → mapGet st.activeCalls callId = some cs →
        (Agora.reject st callId userId).status = 200 ∧
        mapGet (Agora.reject st callId userId).state.activeCalls callId = none ∧
        (Agora.endCall st callId userId).status = 200 ∧
        mapGet (Agora.endCall st callId userId).state.activeCalls callId = none) ∧
    (∀ (st : Agora.ServerState) (callId userId : String),
        mapGet st.activeCalls callId = none →
        Agora.reject st callId userId = ⟨404, st, []⟩ ∧
        Agora.endCall st callId userId = ⟨404, st, []⟩) :=
  ⟨fun st c u cs hnd hget hrecv => Simple.reject_found st c u cs hnd hget hrecv,
   fun st c u cs hnd hget => Simple.endCall_found st c u cs hnd hget,
   fun st c u hget => ⟨Simple.reject_notFound st c u hget, Simple.endCall_notFound st c u hget⟩,
   fun st c u cs hnd hget =>
    ⟨(Agora.agReject_found st c u cs hnd hget).1, (Agora.agReject_found st c u cs hnd hget).2,
     (Agora.agEndCall_found st c u cs hnd hget).1, (Agora.agEndCall_found st c u cs hnd hget).2⟩,
   fun st c u hget => ⟨Agora.agReject_notFound st c u hget, Agora.agEndCall_notFound st c u hget⟩⟩

/-- C5 witness: rejecting session `"c1"` (receiver `"B"`) succeeds and
removes the record; rejecting or ending the absent id `"c9"` answers 404 and
leaves the empty store untouched. -/
theorem C5_terminal_not_retained_witness :
    ((Simple.reject ⟨[], [("c1", csRinging)]⟩ "c1" "B").status = 200 ∧
      mapGet (Simple.reject ⟨[], [("c1", csRinging)]⟩ "c1" "B").state.activeCalls "c1" =
        none) ∧
    (Simple.reject ⟨[], []⟩ "c9" "B" = ⟨404, ⟨[], []⟩, []⟩ ∧
      Simple.endCall ⟨[], []⟩ "c9" "B" = ⟨404, ⟨[], []⟩, []⟩) :=
  ⟨C5_terminal_not_retained.1 ⟨[], [("c1", csRinging)]⟩ "c1" "B" csRinging
      (by decide) (by decide) (by decide),
   C5_terminal_not_retained.2.2.1 ⟨[], []⟩ "c9" "B" (by decide)⟩

/-- C6: the claim fails on `src/server/server.js`: its disconnect handler
frees the participant's presence entry but performs no session cascade.
Participant `"A"` (socket `"s1"`) holds the non-terminal session `"c1"`;
disconnecting `"s1"` removes `"A"` from presence yet emits no `call_ended`
at all and leaves `"c1"` in the store. -/
theorem C6_counterexample :
    mapGet (Agora.disconnect ⟨[("c1", agCall)], [("A", "s1")]⟩ "s1").1.userSockets "A" =
      none ∧
    (Agora.disconnect ⟨[("c1", agCall)], [("A", "s1")]⟩ "s1").2 = [] ∧
    mapGet (Agora.disconnect ⟨[("c1", agCall)], [("A", "s1")]⟩ "s1").1.activeCalls "c1" =
      some agCall := by
  decide

/-- C6 (amended): in `src/src/server.js`, when a disconnect frees
participant `uid`, every stored session referencing `uid` is removed and —
for a session whose two parties differ — exactly one `call_ended` is emitted
addressed at the other party's user id (the handler also addresses one at
the disconnecting party itself), while sessions not referencing `uid` are
kept; in `src/server/server.js`, disconnect performs no cascade: nothing is
emitted and the session store is untouched. -/
theorem C6_cascade_amended :
    (∀ (st : Simple.ServerState) (sid uid : String),
        st.users.find? (fun p => p.2 = sid) = some (uid, sid) →
        keysNodup st.activeCalls →
        ∀ (cid : String) (cs : Simple.CallSession),
          mapGet st.activeCalls cid = some cs →
          (Simple.involves cs uid = true →
            mapGet (Simple.disconnect st sid).1.activeCalls cid = none ∧
            (cs.callerId ≠ cs.receiverId →
              countEmit (Simple.disconnect st sid).2 (Simple.otherParty cs uid)
                (Event.call_ended cid) = 1)) ∧
          (Simple.involves cs uid = false →
            mapGet (Simple.disconnect st sid).1.activeCalls cid = some cs)) ∧
    (∀ (st : Agora.ServerState) (sid : String),
        (Agora.disconnect st sid).2 = [] ∧
        (Agora.disconnect st sid).1.activeCalls = st.activeCalls) := by
  constructor
  · intro st sid uid hfind hnd cid cs hget
    rw [Simple.disconnect_eq_of_find?_some st sid uid sid hfind]
    constructor
    · intro hinv
      refine ⟨?_, fun hne => ?_⟩
      · exact mapGet_filter_of_pred_true st.activeCalls cid cs
          (fun c => Simple.involves c uid) hnd hget hinv
      · exact Simple.cascadeEmits_count_one st.activeCalls uid cid cs hnd hget hinv hne
    · intro hninv
      exact mapGet_filter_of_pred_false st.activeCalls cid cs
        (fun c => Simple.involves c uid) hget hninv
  · intro st sid
    exact Agora.disconnect_no_cascade st sid

/-- C6 witness: disconnecting `"A"`'s socket in the simple server removes
the session `"c1"` it holds and emits exactly one `call_ended` addressed at
the other party `"B"`. -/
theorem C6_cascade_amended_witness :
    mapGet (Simple.disconnect ⟨[("A", "s1")], [("c1", csRinging)]⟩ "s1").1.activeCalls "c1" =
      none ∧
    countEmit (Simple.disconnect ⟨[("A", "s1")], [("c1", csRinging)]⟩ "s1").2
      (Simple.otherParty csRinging "A") (Event.call_ended "c1") = 1 :=
  ⟨((C6_cascade_amended.1 ⟨[("A", "s1")], [("c1", csRinging)]⟩ "s1" "A"
      (by decide) (by decide) "c1" csRinging (by decide)).1 (by decide)).1,
   ((C6_cascade_amended.1 ⟨[("A", "s1")], [("c1", csRinging)]⟩ "s1" "A"
      (by decide) (by decide) "c1" csRinging (by decide)).1 (by decide)).2 (by decide)⟩

/-- C7: confirmed.  In both servers the disconnect handler only deletes a
presence entry whose stored socket id equals the disconnecting socket's id:
any participant whose stored handle differs survives the disconnect, and in
particular after re-registering participant `P` with connection `c2`, a
stale disconnect of the earlier connection `c1 ≠ c2` leaves `lookup(P) = c2`. -/
theorem C7_stale_disconnect_guard :
    (∀ (st : Simple.ServerState) (sid P c : String),
        keysNodup st.users → mapGet st.users P = some c → c ≠ sid →
        mapGet (Simple.disconnect st sid).1.users P = some c) ∧
    (∀ (st : Simple.ServerState) (sid P c2 : String),
        keysNodup st.users → c2 ≠ sid →
        mapGet (Simple.disconnect (Simple.authenticate st P c2) sid).1.users P = some c2) ∧
    (∀ (st : Agora.ServerState) (sid P c : String),
        keysNodup st.userSockets → mapGet st.userSockets P = some c → c ≠ sid →
        mapGet (Agora.disconnect st sid).1.userSockets P = some c) ∧
    (∀ (st : Agora.ServerState) (sid P c2 : String),
        keysNodup st.userSockets → c2 ≠ sid →
        mapGet (Agora.disconnect (Agora.authenticate st P c2) sid).1.userSockets P =
          some c2) := by
  refine ⟨Simple.disconnect_users_preserved, ?_, Agora.agDisconnect_users_preserved, ?_⟩
  · intro st sid P c2 hnd hne
    exact Simple.disconnect_users_preserved (Simple.authenticate st P c2) sid P c2
      (keysNodup_mapSet st.users P c2 hnd) (mapGet_mapSet_self st.users P c2) hne
  · intro st sid P c2 hnd hne
    exact Agora.agDisconnect_users_preserved (Agora.authenticate st P c2) sid P c2
      (keysNodup_mapSet st.userSockets P c2 hnd) (mapGet_mapSet_self st.userSockets P c2) hne

/-- C7 witness: participant `"P"` re-registers with connection `"c2"`; the
stale disconnect of its earlier connection `"c1"` does not evict it. -/
theorem C7_stale_disconnect_guard_witness :
    mapGet (Simple.disconnect (Simple.authenticate ⟨[("P", "c1")], []⟩ "P" "c2")
        "c1").1.users "P" = some "c2" :=
  C7_stale_disconnect_guard.2.1 ⟨[("P", "c1")], []⟩ "c1" "P" "c2" (by decide) (by decide)

/-- C8: confirmed.  The `audio_data` handler of `src/src/server.js` drops
the event with no state change and no reply when the call id is unknown;
otherwise it resolves the recipient as the other side of the session
(receiver when the declared sender is the caller, else the caller) and
either forwards the chunk verbatim to the recipient's socket or silently
drops it when that participant has no live connection. -/
theorem C8_audio_relay :
    (∀ (st : Simple.ServerState) (callId senderId chunk : String),
        mapGet st.activeCalls callId = none →
        Simple.audioData st callId senderId chunk = []) ∧
    (∀ (st : Simple.ServerState) (callId senderId chunk : String) (cs : Simple.CallSession),
        mapGet st.activeCalls callId = some cs →
        (mapGet st.users (if cs.callerId = senderId then cs.receiverId else cs.callerId) =
            none → Simple.audioData st callId senderId chunk = []) ∧
        (∀ sock,
          mapGet st.users (if cs.callerId = senderId then cs.receiverId else cs.callerId) =
              some sock →
          Simple.audioData st callId senderId chunk =
            [⟨sock, Event.audio_data callId chunk⟩])) := by
  constructor
  · intro st c s ch hget
    simp [Simple.audioData, hget]
  · intro st c s ch cs hget
    constructor
    · intro hr
      simp [Simple.audioData, hget, hr]
    · intro sock hr
      simp [Simple.audioData, hget, hr]

/-- C8 witness: unknown call id → dropped; known session with connected
recipient `"B"` → the chunk is forwarded verbatim to `"B"`'s socket. -/
theorem C8_audio_relay_witness :
    Simple.audioData ⟨[], []⟩ "c1" "A" "blob" = [] ∧
    Simple.audioData ⟨[("B", "s1")], [("c1", csRinging)]⟩ "c1" "A" "blob" =
      [⟨"s1", Event.audio_data "c1" "blob"⟩] :=
  ⟨C8_audio_relay.1 ⟨[], []⟩ "c1" "A" "blob" (by decide),
   (C8_audio_relay.2 ⟨[("B", "s1")], [("c1", csRinging)]⟩ "c1" "A" "blob" csRinging
      (by decide)).2 "s1" (by decide)⟩

/-- C9: confirmed against the spec model of the Room pairing engine (the
room code is absent from `src/`): a join whose code matches no live room
fails with `RoomNotFound` and changes nothing, and after two successful
joins with one code a third join with the same code fails with `RoomFull`. -/
theorem C9_room_capacity :
    (∀ (rooms : List (String × Rooms.Room)) (code conn name : String),
        (∀ p ∈ rooms, Rooms.codeEq p.1 code = false) →
        Rooms.join rooms code conn name = (Rooms.JoinOutcome.roomNotFound, rooms)) ∧
    (∀ (rooms : List (String × Rooms.Room)) (code c1 n1 c2 n2 c3 n3 : String) (k1 k2 : Nat),
        (Rooms.join rooms code c1 n1).1 = Rooms.JoinOutcome.joined k1 →
        (Rooms.join (Rooms.join rooms code c1 n1).2 code c2 n2).1 =
          Rooms.JoinOutcome.joined k2 →
        (Rooms.join (Rooms.join (Rooms.join rooms code c1 n1).2 code c2 n2).2
            code c3 n3).1 = Rooms.JoinOutcome.roomFull) :=
  ⟨Rooms.join_not_found, Rooms.join_third_full⟩

/-- C9 witness: with one live room `"AB12CD"`, joining with code `"zz"`
fails with `RoomNotFound`, and a third case-insensitive join with
`"ab12cd"` after two successful ones fails with `RoomFull`. -/
theorem C9_room_capacity_witness :
    Rooms.join [("AB12CD", roomEmpty)] "zz" "x" "X" =
      (Rooms.JoinOutcome.roomNotFound, [("AB12CD", roomEmpty)]) ∧
    (Rooms.join (Rooms.join (Rooms.join [("AB12CD", roomEmpty)] "ab12cd" "x" "X").2
        "ab12cd" "y" "Y").2 "ab12cd" "z" "Z").1 = Rooms.JoinOutcome.roomFull :=
  ⟨C9_room_capacity.1 [("AB12CD", roomEmpty)] "zz" "x" "X" (by decide),
   C9_room_capacity.2 [("AB12CD", roomEmpty)] "ab12cd" "x" "X" "y" "Y" "z" "Z" 1 2
      (by decide) (by decide)⟩

/-- C10: confirmed.  In both servers the end endpoint never validates the
acting user: for every stored session and every userId — including one that
is neither caller nor receiver — end answers 200 and removes the session,
and its only failure is 404 on an absent session id, which changes nothing. -/
theorem C10_end_never_validates :
    (∀ (st : Simple.ServerState) (callId userId : String) (cs : Simple.CallSession),
        keysNodup st.activeCalls → mapGet st.activeCalls callId = some cs →
        (Simple.endCall st callId userId).status = 200 ∧
        mapGet (Simple.endCall st callId userId).state.activeCalls callId = none) ∧
    (∀ (st : Simple.ServerState) (callId userId : String),
        mapGet st.activeCalls callId = none →
        Simple.endCall st callId userId = ⟨404, st, []⟩) ∧
    (∀ (st : Agora.ServerState) (callId userId : String) (cs : Agora.CallSession),
        keysNodup st.activeCalls → mapGet st.activeCalls callId = some cs →
        (Agora.endCall st callId userId).status = 200 ∧
        mapGet (Agora.endCall st callId userId).state.activeCalls callId = none) ∧
    (∀ (st : Agora.ServerState) (callId userId : String),
        mapGet st.activeCalls callId = none →
        Agora.endCall st callId userId = ⟨404, st, []⟩) :=
  ⟨fun st c u cs hnd hget => Simple.endCall_found st c u cs hnd hget,
   fun st c u hget => Simple.endCall_notFound st c u hget,
   fun st c u cs hnd hget => Agora.agEndCall_found st c u cs hnd hget,
   fun st c u hget => Agora.agEndCall_notFound st c u hget⟩

/-- C10 witness: the stranger `"Z"` — neither caller `"A"` nor receiver
`"B"` — successfully ends session `"c1"`, which is removed. -/
theorem C10_end_never_validates_witness :
    (Simple.endCall ⟨[], [("c1", csRinging)]⟩ "c1" "Z").status = 200 ∧
    mapGet (Simple.endCall ⟨[], [("c1", csRinging)]⟩ "c1" "Z").state.activeCalls "c1" =
      none :=
  C10_end_never_validates.1 ⟨[], [("c1", csRinging)]⟩ "c1" "Z" csRinging
    (by decide) (by decide)

end FoodGo
